import Mathlib

/-!
Verification of the per-guild playback queue and playback-advance controller
of `discord_multibot.py`.

The embedding models, directly from the source:
* `Song` and `MusicQueue` with `enqueue` / `dequeue` / `clear` /
  `list_titles` / `size` (the `__len__` method);
* the playlist-enqueue loop of `cmd_play` (`cmd_play_enqueue`);
* `start_playback_if_needed` over an explicit per-guild state `GState`
  (voice client, queue, emitted channel notifications), split at its one
  `await` suspension point into `segA` (the synchronous guard-and-dequeue
  prefix) and `segB` (the resolution outcome and `vc.play` call), so that
  both the sequential function and the cooperative interleaving of two
  concurrent invocations can be analysed;
* the `_after_play` completion callback and the handlers `cmd_skip` and
  `cmd_stop`.

Stream resolution (`build_ffmpeg_source`) is abstracted by a predicate
`resolve : Song → Bool` saying whether resolution of a song succeeds.
-/

set_option linter.unusedVariables false

/-- One pending playback request (dataclass `Song` in the source): source
URL, display title, requester display name, and the text channel where
status messages are sent (modelled by a numeric channel id). -/
structure Song where
  url : String
  title : String
  requester_name : String
  channel : Nat
deriving DecidableEq, Repr

/-- `MAX_QUEUE_LENGTH = 50` in the source: the default queue capacity. -/
def MAX_QUEUE_LENGTH : Nat := 50

/-- The per-guild bounded FIFO (class `MusicQueue`): the deque of songs plus
the capacity `limit` fixed at construction. -/
structure MusicQueue where
  queue : List Song
  limit : Nat
deriving DecidableEq, Repr

/-- `MusicQueue.enqueue`: if `len(self._queue) >= self.limit` return `False`
without mutating; otherwise append at the tail and return `True`. -/
def MusicQueue.enqueue (m : MusicQueue) (item : Song) : MusicQueue × Bool :=
  if m.limit ≤ m.queue.length then (m, false)
  else ({ m with queue := m.queue ++ [item] }, true)

/-- `MusicQueue.dequeue`: `popleft` the head, or return `None` when empty. -/
def MusicQueue.dequeue (m : MusicQueue) : Option Song × MusicQueue :=
  match m.queue with
  | [] => (none, m)
  | s :: rest => (some s, { m with queue := rest })

/-- `MusicQueue.clear`: drop all entries, keep the queue object. -/
def MusicQueue.clear (m : MusicQueue) : MusicQueue :=
  { m with queue := [] }

/-- `MusicQueue.list_titles`. -/
def MusicQueue.list_titles (m : MusicQueue) : List String :=
  m.queue.map Song.title

/-- `MusicQueue.__len__`. -/
def MusicQueue.size (m : MusicQueue) : Nat :=
  m.queue.length

/-- An arbitrary sequence of `enqueue` calls, one per list element, keeping
each call's resulting queue (a rejected call leaves the queue unchanged). -/
def enqueue_seq : MusicQueue → List Song → MusicQueue
  | m, [] => m
  | m, e :: rest => enqueue_seq (m.enqueue e).1 rest

/-- The playlist branch of `cmd_play`: enqueue the resolved entries in
result order, counting `songs_added`, and `break` out of the loop at the
first rejected enqueue. -/
def cmd_play_enqueue : MusicQueue → List Song → MusicQueue × Nat
  | m, [] => (m, 0)
  | m, e :: rest =>
    let r := m.enqueue e
    if r.2 then
      let r2 := cmd_play_enqueue r.1 rest
      (r2.1, r2.2 + 1)
    else (r.1, 0)

/-- `n` successive `dequeue` calls, collecting the returned values. -/
def dequeue_n : Nat → MusicQueue → List (Option Song) × MusicQueue
  | 0, m => ([], m)
  | n + 1, m =>
    let r := m.dequeue
    let r2 := dequeue_n n r.2
    (r.1 :: r2.1, r2.2)

/-- The slice of `discord.VoiceClient` state the controller reads:
`is_connected()` and `is_playing()`. -/
structure VoiceClient where
  connected : Bool
  playing : Bool
deriving DecidableEq, Repr

/-- Observable notifications the controller sends to a song's text channel:
the now-playing message after a successful `vc.play`, and the error message
of the `except` branch of `start_playback_if_needed`. -/
inductive Event where
  | nowPlaying (song : Song)
  | playError (song : Song)
deriving DecidableEq, Repr

/-- Per-guild state touched by the playback controller: the guild's voice
client (if any), the guild's entry in `music_queues` (if any), and the
notifications sent so far. -/
structure GState where
  vc : Option VoiceClient
  queue : Option MusicQueue
  events : List Event
deriving DecidableEq, Repr

/-- Whether the guild's voice client is currently playing. -/
def isPlaying (s : GState) : Bool :=
  match s.vc with
  | none => false
  | some v => v.playing

/-- The guild's queue size (`len(queue)`), with 0 for an absent queue. -/
def qsize (s : GState) : Nat :=
  match s.queue with
  | none => 0
  | some m => m.size

/-- The synchronous prefix of `start_playback_if_needed`, up to the
`await build_ffmpeg_source` suspension point: the voice-client and
connectedness guard, the absent-or-empty-queue guard (`not queue or
len(queue) == 0`), the `is_playing` guard, and the dequeue (with the
source's `if not song: return` check). Returns the dequeued song, or
`none` when the function returned without dequeuing. -/
def segA (s : GState) : GState × Option Song :=
  match s.vc with
  | none => (s, none)
  | some v =>
    if v.connected = false then (s, none)
    else
      match s.queue with
      | none => (s, none)
      | some m =>
        if m.size = 0 then (s, none)
        else if v.playing then (s, none)
        else
          let r := m.dequeue
          match r.1 with
          | none => (s, none)
          | some song => ({ s with queue := some r.2 }, some song)

/-- The remainder of `start_playback_if_needed` after the suspension point:
`build_ffmpeg_source` either fails — the `except` branch sends the error
message to the song's channel and the function returns — or yields a source
handed to `vc.play` (which raises, landing in the same `except` branch, if
the client is already playing by then), followed by the now-playing
message. `resolve` abstracts whether `build_ffmpeg_source` succeeds. -/
def segB (resolve : Song → Bool) (s : GState) (song : Song) : GState :=
  if resolve song then
    match s.vc with
    | none => { s with events := s.events ++ [Event.playError song] }
    | some v =>
      if v.playing then { s with events := s.events ++ [Event.playError song] }
      else
        { s with vc := some { v with playing := true },
                 events := s.events ++ [Event.nowPlaying song] }
  else { s with events := s.events ++ [Event.playError song] }

/-- `start_playback_if_needed` run without interleaving: the synchronous
prefix followed, when a song was dequeued, by the post-await remainder. -/
def start_playback_if_needed (resolve : Song → Bool) (s : GState) : GState :=
  let r := segA s
  match r.2 with
  | none => r.1
  | some song => segB resolve r.1 song

/-- The `_after_play` callback registered with `vc.play` inside
`start_playback_if_needed`: it ignores its error argument and schedules
`start_playback_if_needed` for the same guild on the bot loop. -/
def after_play (resolve : Song → Bool) (err : Option String) (s : GState) : GState :=
  start_playback_if_needed resolve s

/-- Modelled collaborator contract of the audio sink: when playback ends
(natural end of track, playback error, or `VoiceClient.stop`), the client
is no longer playing and the registered `after` callback is invoked exactly
once. -/
def on_track_complete (resolve : Song → Bool) (err : Option String) (s : GState) : GState :=
  after_play resolve err
    { s with vc := s.vc.map (fun v => { v with playing := false }) }

/-- `cmd_skip`: if there is a voice client and it is playing, call
`vc.stop()` (the completion callback then fires separately, modelled by
`on_track_complete`); otherwise only reply that nothing is playing. -/
def cmd_skip (s : GState) : GState :=
  match s.vc with
  | none => s
  | some v =>
    if v.playing then { s with vc := some { v with playing := false } } else s

/-- `cmd_stop`: with a voice client present, call `vc.stop()` and then clear
the guild's queue when one exists and is non-empty (the source's `if q:` is
false for an absent or empty queue); with no voice client, only reply. -/
def cmd_stop (s : GState) : GState :=
  match s.vc with
  | none => s
  | some v =>
    let s1 := { s with vc := some { v with playing := false } }
    match s1.queue with
    | none => s1
    | some m => if m.size = 0 then s1 else { s1 with queue := some m.clear }

/-- Progress of one in-flight `start_playback_if_needed` invocation: not
yet run, suspended at the `await` with its dequeued song, or finished. -/
inductive TaskPhase where
  | start
  | resolvedSong (song : Song)
  | done
deriving DecidableEq, Repr

/-- One cooperative step of a task: from `start`, run the synchronous prefix
`segA` atomically (finishing at once when it returns without a song); from
the suspension point, run the remainder `segB` atomically; a finished task
does nothing. -/
def stepTask (resolve : Song → Bool) (p : TaskPhase) (s : GState) :
    TaskPhase × GState :=
  match p with
  | .start =>
    let r := segA s
    match r.2 with
    | none => (.done, r.1)
    | some song => (.resolvedSong song, r.1)
  | .resolvedSong song => (.done, segB resolve s song)
  | .done => (.done, s)

/-- Run two concurrent `start_playback_if_needed` invocations for the same
guild under a cooperative schedule: `true` steps the first task, `false`
the second. -/
def runSched (resolve : Song → Bool) :
    List Bool → TaskPhase → TaskPhase → GState → TaskPhase × TaskPhase × GState
  | [], p1, p2, s => (p1, p2, s)
  | true :: rest, p1, p2, s =>
    let r := stepTask resolve p1 s
    runSched resolve rest r.1 p2 r.2
  | false :: rest, p1, p2, s =>
    let r := stepTask resolve p2 s
    runSched resolve rest p1 r.1 r.2

/-- Number of playback starts (now-playing notifications) among the
events. -/
def countPlays (evs : List Event) : Nat :=
  (evs.filter (fun e => match e with | .nowPlaying _ => true | _ => false)).length

/-- Concrete sample song used in counterexamples and witnesses. -/
def songA : Song := { url := "a", title := "A", requester_name := "ra", channel := 1 }

/-- Concrete sample song used in counterexamples and witnesses. -/
def songB : Song := { url := "b", title := "B", requester_name := "rb", channel := 1 }

/-- Resolver for which `songA` is unplayable and every other song resolves. -/
def resolveAB (s : Song) : Bool := s.url != "a"

/-- Resolver for which every song resolves. -/
def resolveAll : Song → Bool := fun _ => true

/-- Connected, idle guild whose queue holds `[songA, songB]`. -/
def stallState : GState :=
  { vc := some { connected := true, playing := false },
    queue := some { queue := [songA, songB], limit := MAX_QUEUE_LENGTH },
    events := [] }

/-! ### Helper lemmas about the queue operations -/

lemma enqueue_of_full (m : MusicQueue) (e : Song) (h : m.limit ≤ m.queue.length) :
    m.enqueue e = (m, false) := by
  simp [MusicQueue.enqueue, h]

lemma enqueue_of_room (m : MusicQueue) (e : Song) (h : m.queue.length < m.limit) :
    m.enqueue e = ({ m with queue := m.queue ++ [e] }, true) := by
  simp [MusicQueue.enqueue, Nat.not_le.mpr h]

/-- Closed form of the playlist-enqueue loop of `cmd_play`: the accepted
prefix is exactly `min` of the number of resolved entries and the remaining
capacity, everything past the first rejection is dropped, and the count of
accepted entries is that same `min`. -/
lemma cmd_play_enqueue_eq (m : MusicQueue) (es : List Song) :
    cmd_play_enqueue m es =
      ({ m with queue :=
          m.queue ++ es.take (min es.length (m.limit - m.queue.length)) },
        min es.length (m.limit - m.queue.length)) := by
  induction es generalizing m with
  | nil => simp [cmd_play_enqueue]
  | cons e rest ih =>
    rcases le_or_lt m.limit m.queue.length with h | h
    · have h0 : m.limit - m.queue.length = 0 := Nat.sub_eq_zero_of_le h
      simp [cmd_play_enqueue, enqueue_of_full m e h, h0]
    · have hpos : 0 < m.limit - m.queue.length := Nat.sub_pos_of_lt h
      obtain ⟨k, hk⟩ : ∃ k, m.limit - m.queue.length = k + 1 :=
        ⟨m.limit - m.queue.length - 1, by omega⟩
      have hlen : m.limit - (m.queue.length + 1) = k := by omega
      simp only [cmd_play_enqueue, enqueue_of_room m e h, if_pos, ih]
      simp [hk, hlen, Nat.succ_min_succ, List.take_succ_cons]

lemma enqueue_seq_limit (es : List Song) : ∀ m : MusicQueue,
    (enqueue_seq m es).limit = m.limit := by
  induction es with
  | nil => intro m; simp [enqueue_seq]
  | cons e rest ih =>
    intro m
    rcases le_or_lt m.limit m.queue.length with h | h
    · simp [enqueue_seq, enqueue_of_full m e h, ih]
    · simp [enqueue_seq, enqueue_of_room m e h, ih]

lemma enqueue_seq_bounded (es : List Song) : ∀ m : MusicQueue,
    m.queue.length ≤ m.limit → (enqueue_seq m es).queue.length ≤ m.limit := by
  induction es with
  | nil => intro m h; simpa [enqueue_seq] using h
  | cons e rest ih =>
    intro m h
    rcases le_or_lt m.limit m.queue.length with hf | hr
    · simpa [enqueue_seq, enqueue_of_full m e hf] using ih m h
    · have := ih { m with queue := m.queue ++ [e] } (by simpa using hr)
      simpa [enqueue_seq, enqueue_of_room m e hr] using this

lemma dequeue_n_exact (q : List Song) : ∀ limit : Nat,
    (dequeue_n q.length { queue := q, limit := limit }).1 = q.map some := by
  induction q with
  | nil => intro limit; simp [dequeue_n]
  | cons s rest ih =>
    intro limit
    simp [dequeue_n, MusicQueue.dequeue, ih]

/-! ### Claim theorems: queue operations -/

/-- C1: the claim says a failed resolution notifies the entry's channel and
immediately re-invokes the advance, so that for queue `[A(fails),
B(succeeds)]` playback of B starts. The code does notify, but its `except`
branch never re-invokes `start_playback_if_needed`: after one advance on
`stallState` the guild is still idle, B is still queued, and no playback
started (`countPlays = 0`). B plays only when a later, external call
re-invokes the advance (third conjunct). -/
theorem C1_failure_stalls_queue :
    start_playback_if_needed resolveAB stallState =
      { vc := some { connected := true, playing := false },
        queue := some { queue := [songB], limit := MAX_QUEUE_LENGTH },
        events := [Event.playError songA] } ∧
    countPlays (start_playback_if_needed resolveAB stallState).events = 0 ∧
    isPlaying (start_playback_if_needed resolveAB stallState) = false ∧
    start_playback_if_needed resolveAB
        (start_playback_if_needed resolveAB stallState) =
      { vc := some { connected := true, playing := true },
        queue := some { queue := [], limit := MAX_QUEUE_LENGTH },
        events := [Event.playError songA, Event.nowPlaying songB] } := by
  refine ⟨rfl, rfl, rfl, rfl⟩

/-- C2: the queue size never exceeds the capacity over any sequence of
enqueues; an enqueue at (or beyond) capacity is rejected and mutates
nothing; an enqueue strictly below capacity appends at the tail and is
accepted. -/
theorem C2_enqueue_capacity (m : MusicQueue) (es : List Song) (e : Song)
    (hinv : m.queue.length ≤ m.limit) :
    (enqueue_seq m es).size ≤ (enqueue_seq m es).limit ∧
    (m.queue.length = m.limit → m.enqueue e = (m, false)) ∧
    (m.queue.length < m.limit →
      m.enqueue e = ({ m with queue := m.queue ++ [e] }, true)) := by
  refine ⟨?_, ?_, ?_⟩
  · rw [enqueue_seq_limit]
    exact enqueue_seq_bounded es m hinv
  · intro h
    exact enqueue_of_full m e (le_of_eq h.symm)
  · intro h
    exact enqueue_of_room m e h

/-- Witness for C2 at a concrete queue of capacity 2 holding one song. -/
theorem C2_enqueue_capacity_witness :
    (enqueue_seq { queue := [songA], limit := 2 } [songB, songA, songB]).size ≤
      (enqueue_seq { queue := [songA], limit := 2 } [songB, songA, songB]).limit ∧
    (({ queue := [songA], limit := 2 } : MusicQueue).queue.length = 2 →
      MusicQueue.enqueue { queue := [songA], limit := 2 } songB =
        ({ queue := [songA], limit := 2 }, false)) ∧
    (({ queue := [songA], limit := 2 } : MusicQueue).queue.length < 2 →
      MusicQueue.enqueue { queue := [songA], limit := 2 } songB =
        ({ queue := [songA, songB], limit := 2 }, true)) :=
  C2_enqueue_capacity { queue := [songA], limit := 2 } [songB, songA, songB]
    songB (by decide)

/-- C3: starting from an empty queue, enqueueing `es` (all of which fit, so
all are accepted: the loop's accept count is `es.length`) and then
performing `es.length` dequeues returns exactly `es` in order; moreover the
only mutating operation besides `dequeue` and `clear`, namely `enqueue`,
either leaves the queue unchanged or appends one entry at the tail — it
never removes or reorders existing entries. -/
theorem C3_fifo (limit : Nat) (es : List Song) (h : es.length ≤ limit) :
    (cmd_play_enqueue { queue := [], limit := limit } es).2 = es.length ∧
    (dequeue_n es.length (cmd_play_enqueue { queue := [], limit := limit } es).1).1 =
      es.map some ∧
    (∀ (m : MusicQueue) (e : Song),
      (m.enqueue e).1.queue = m.queue ∨ (m.enqueue e).1.queue = m.queue ++ [e]) := by
  have hmin : min es.length limit = es.length := min_eq_left h
  have heq := cmd_play_enqueue_eq { queue := [], limit := limit } es
  refine ⟨?_, ?_, ?_⟩
  · rw [heq]
    simpa using hmin
  · rw [heq]
    have htake : es.take es.length = es := List.take_length es
    simp [hmin, htake, dequeue_n_exact]
  · intro m e
    rcases le_or_lt m.limit m.queue.length with hf | hr
    · left; simp [enqueue_of_full m e hf]
    · right; simp [enqueue_of_room m e hr]

/-- Witness for C3 with two songs and capacity 50. -/
theorem C3_fifo_witness :
    (cmd_play_enqueue { queue := [], limit := 50 } [songA, songB]).2 = 2 ∧
    (dequeue_n 2 (cmd_play_enqueue { queue := [], limit := 50 } [songA, songB]).1).1 =
      [some songA, some songB] ∧
    (∀ (m : MusicQueue) (e : Song),
      (m.enqueue e).1.queue = m.queue ∨ (m.enqueue e).1.queue = m.queue ++ [e]) :=
  C3_fifo 50 [songA, songB] (by decide)

/-- C9: the playlist branch of `cmd_play` enqueues entries in result order,
stops for good at the first rejection (second conjunct: once an enqueue is
rejected the remaining entries contribute nothing), and reports as added
exactly `min` of the number of resolved entries and the queue's remaining
capacity, with exactly that prefix appended. -/
theorem C9_playlist_enqueue (m : MusicQueue) (es : List Song) :
    cmd_play_enqueue m es =
      ({ m with queue :=
          m.queue ++ es.take (min es.length (m.limit - m.queue.length)) },
        min es.length (m.limit - m.queue.length)) ∧
    (∀ (e : Song) (rest : List Song),
      (m.enqueue e).2 = false → cmd_play_enqueue m (e :: rest) = (m, 0)) := by
  refine ⟨cmd_play_enqueue_eq m es, ?_⟩
  intro e rest hrej
  have hf : m.limit ≤ m.queue.length := by
    by_contra hc
    rw [enqueue_of_room m e (Nat.lt_of_not_le hc)] at hrej
    simp at hrej
  simp [cmd_play_enqueue, enqueue_of_full m e hf]

/-- Witness for C9: a queue of capacity 3 holding two songs accepts exactly
one of three offered entries, and a full queue rejects immediately. -/
theorem C9_playlist_enqueue_witness :
    cmd_play_enqueue { queue := [songA, songB], limit := 3 } [songB, songA, songB] =
      ({ queue := [songA, songB, songB], limit := 3 }, 1) ∧
    (∀ (e : Song) (rest : List Song),
      (MusicQueue.enqueue { queue := [songA, songB], limit := 3 } e).2 = false →
        cmd_play_enqueue { queue := [songA, songB], limit := 3 } (e :: rest) =
          ({ queue := [songA, songB], limit := 3 }, 0)) := by
  have h := C9_playlist_enqueue { queue := [songA, songB], limit := 3 }
    [songB, songA, songB]
  exact ⟨by simpa using h.1, h.2⟩

/-! ### Helper lemmas about the controller -/

lemma advance_of_segA_self_none (resolve : Song → Bool) (s : GState)
    (h : segA s = (s, none)) : start_playback_if_needed resolve s = s := by
  unfold start_playback_if_needed
  rw [h]

lemma segA_of_vc_none (s : GState) (h : s.vc = none) : segA s = (s, none) := by
  unfold segA
  rw [h]

lemma segA_of_disconnected (s : GState) (v : VoiceClient)
    (h1 : s.vc = some v) (h2 : v.connected = false) : segA s = (s, none) := by
  unfold segA
  rw [h1]
  simp [h2]

lemma segA_of_queue_none (s : GState) (h : s.queue = none) : segA s = (s, none) := by
  unfold segA
  cases hvc : s.vc with
  | none => rfl
  | some v =>
    by_cases hc : v.connected = false
    · simp [hc]
    · simp [hc, h]

lemma segA_of_queue_empty (s : GState) (m : MusicQueue)
    (h1 : s.queue = some m) (h2 : m.size = 0) : segA s = (s, none) := by
  unfold segA
  cases hvc : s.vc with
  | none => rfl
  | some v =>
    by_cases hc : v.connected = false
    · simp [hc]
    · simp [hc, h1, h2]

lemma segA_of_playing (s : GState) (v : VoiceClient)
    (h1 : s.vc = some v) (h2 : v.playing = true) : segA s = (s, none) := by
  unfold segA
  rw [h1]
  by_cases hc : v.connected = false
  · simp [hc]
  · simp only [hc, if_false]
    cases hq : s.queue with
    | none => rfl
    | some m =>
      by_cases hm : m.size = 0
      · simp [hm]
      · simp [hm, h2]

lemma advance_of_qsize_zero (resolve : Song → Bool) (s : GState)
    (h : qsize s = 0) : start_playback_if_needed resolve s = s := by
  apply advance_of_segA_self_none
  cases hq : s.queue with
  | none => exact segA_of_queue_none s hq
  | some m =>
    apply segA_of_queue_empty s m hq
    unfold qsize at h
    rw [hq] at h
    exact h

/-! ### Claim theorems: the advance operation and the command handlers -/

/-- C6: `start_playback_if_needed` is a strict no-op — same queue, same
events, no playback started — whenever the guild has no voice client, or a
disconnected one, or the client is already playing, or the guild has no
queue, or its queue is empty. -/
theorem C6_advance_noop (resolve : Song → Bool) (s : GState) :
    (s.vc = none → start_playback_if_needed resolve s = s) ∧
    (∀ v : VoiceClient, s.vc = some v → v.connected = false →
      start_playback_if_needed resolve s = s) ∧
    (∀ v : VoiceClient, s.vc = some v → v.playing = true →
      start_playback_if_needed resolve s = s) ∧
    (s.queue = none → start_playback_if_needed resolve s = s) ∧
    (∀ m : MusicQueue, s.queue = some m → m.size = 0 →
      start_playback_if_needed resolve s = s) := by
  refine ⟨?_, ?_, ?_, ?_, ?_⟩
  · intro h
    exact advance_of_segA_self_none resolve s (segA_of_vc_none s h)
  · intro v h1 h2
    exact advance_of_segA_self_none resolve s (segA_of_disconnected s v h1 h2)
  · intro v h1 h2
    exact advance_of_segA_self_none resolve s (segA_of_playing s v h1 h2)
  · intro h
    exact advance_of_segA_self_none resolve s (segA_of_queue_none s h)
  · intro m h1 h2
    exact advance_of_segA_self_none resolve s (segA_of_queue_empty s m h1 h2)

/-- Witness for C6: a disconnected guild with a non-empty queue. -/
theorem C6_advance_noop_witness :
    start_playback_if_needed resolveAll
      { vc := some { connected := false, playing := false },
        queue := some { queue := [songA], limit := 50 },
        events := [] } =
      { vc := some { connected := false, playing := false },
        queue := some { queue := [songA], limit := 50 },
        events := [] } :=
  (C6_advance_noop resolveAll
    { vc := some { connected := false, playing := false },
      queue := some { queue := [songA], limit := 50 },
      events := [] }).2.1 { connected := false, playing := false } rfl rfl

/-- C4: the completion callback ignores which way the track ended (its
result does not depend on the error argument), unconditionally re-invokes
`start_playback_if_needed` on the post-completion state, and drives the
per-guild loop: from Playing with a connected client, a non-empty queue and
a resolvable head, completion dequeues the head and is Playing again with
the now-playing notification appended; with an empty queue, completion
lands in Idle with the queue untouched. -/
theorem C4_completion_advances (resolve : Song → Bool)
    (err err2 : Option String) (s : GState) :
    on_track_complete resolve err s = on_track_complete resolve err2 s ∧
    on_track_complete resolve err s =
      start_playback_if_needed resolve
        { s with vc := s.vc.map (fun v => { v with playing := false }) } ∧
    (∀ (v : VoiceClient) (m : MusicQueue) (song : Song) (rest : List Song),
      s.vc = some v → v.connected = true → s.queue = some m →
      m.queue = song :: rest → resolve song = true →
      isPlaying (on_track_complete resolve err s) = true ∧
      (on_track_complete resolve err s).queue = some { m with queue := rest } ∧
      (on_track_complete resolve err s).events =
        s.events ++ [Event.nowPlaying song]) ∧
    (∀ m : MusicQueue, s.queue = some m → m.queue = [] →
      isPlaying (on_track_complete resolve err s) = false ∧
      (on_track_complete resolve err s).queue = s.queue ∧
      (on_track_complete resolve err s).events = s.events) := by
  refine ⟨rfl, rfl, ?_, ?_⟩
  · intro v m song rest h1 h2 h3 h4 h5
    obtain ⟨vc, vp⟩ := v
    simp only at h2
    subst h2
    simp [on_track_complete, after_play, start_playback_if_needed, segA, segB,
      MusicQueue.dequeue, MusicQueue.size, isPlaying, h1, h3, h4, h5]
  · intro m h1 h2
    have hnoop := advance_of_qsize_zero resolve
      { s with vc := s.vc.map (fun v => { v with playing := false }) }
      (by unfold qsize MusicQueue.size at *; simp [h1, h2])
    unfold on_track_complete after_play
    rw [hnoop]
    refine ⟨?_, rfl, rfl⟩
    unfold isPlaying
    cases s.vc <;> simp

/-- Witness for C4 at a Playing guild whose queue holds one resolvable
song. -/
theorem C4_completion_advances_witness :
    isPlaying (on_track_complete resolveAll none
      { vc := some { connected := true, playing := true },
        queue := some { queue := [songA], limit := 50 },
        events := [] }) = true ∧
    (on_track_complete resolveAll none
      { vc := some { connected := true, playing := true },
        queue := some { queue := [songA], limit := 50 },
        events := [] }).queue = some { queue := [], limit := 50 } ∧
    (on_track_complete resolveAll none
      { vc := some { connected := true, playing := true },
        queue := some { queue := [songA], limit := 50 },
        events := [] }).events = [] ++ [Event.nowPlaying songA] :=
  (C4_completion_advances resolveAll none none
    { vc := some { connected := true, playing := true },
      queue := some { queue := [songA], limit := 50 },
      events := [] }).2.2.1
    { connected := true, playing := true } { queue := [songA], limit := 50 }
    songA [] rfl rfl rfl rfl rfl

/-- C7: with a voice client present, `cmd_stop` ends the current playback
and clears the queue: immediately afterwards nothing is playing and the
queue size is 0, and this still holds after the stop-triggered completion
callback (cancellation of the in-flight track) has fired and re-run the
advance, which finds the queue empty. -/
theorem C7_stop_clears (resolve : Song → Bool) (err : Option String)
    (s : GState) (v : VoiceClient) (h : s.vc = some v) :
    isPlaying (cmd_stop s) = false ∧
    qsize (cmd_stop s) = 0 ∧
    isPlaying (on_track_complete resolve err (cmd_stop s)) = false ∧
    qsize (on_track_complete resolve err (cmd_stop s)) = 0 := by
  have hstop : isPlaying (cmd_stop s) = false ∧ qsize (cmd_stop s) = 0 := by
    unfold cmd_stop
    rw [h]
    cases hq : s.queue with
    | none => simp [isPlaying, qsize, hq]
    | some m =>
      by_cases hm : m.size = 0
      · simp [isPlaying, qsize, hq, hm]
      · have hne : m.queue ≠ [] := by
          intro hnil
          apply hm
          unfold MusicQueue.size
          rw [hnil]
          rfl
        simp [isPlaying, qsize, hq, hm, hne, MusicQueue.clear, MusicQueue.size]
  have hnoop := advance_of_qsize_zero resolve
    { cmd_stop s with
        vc := (cmd_stop s).vc.map (fun v => { v with playing := false }) }
    (by
      have := hstop.2
      unfold qsize at *
      simpa using this)
  refine ⟨hstop.1, hstop.2, ?_, ?_⟩
  · unfold on_track_complete after_play
    rw [hnoop]
    unfold isPlaying
    cases (cmd_stop s).vc <;> simp
  · unfold on_track_complete after_play
    rw [hnoop]
    have := hstop.2
    unfold qsize at *
    simpa using this

/-- Witness for C7 at a connected, playing guild with a two-song queue. -/
theorem C7_stop_clears_witness :
    isPlaying (cmd_stop stallState) = false ∧
    qsize (cmd_stop stallState) = 0 ∧
    isPlaying (on_track_complete resolveAll none (cmd_stop stallState)) = false ∧
    qsize (on_track_complete resolveAll none (cmd_stop stallState)) = 0 :=
  C7_stop_clears resolveAll none stallState
    { connected := true, playing := false } rfl

/-- C8: when nothing is playing, `cmd_skip` takes its `else` branch and is a
strict no-op: the voice client is not stopped (so no completion event can
fire) and the whole guild state — queue included — is unchanged. -/
theorem C8_skip_idle_noop (s : GState) (h : isPlaying s = false) :
    cmd_skip s = s := by
  unfold cmd_skip
  cases hvc : s.vc with
  | none => rfl
  | some v =>
    unfold isPlaying at h
    rw [hvc] at h
    simp at h
    simp [h]

/-- Witness for C8 at an idle guild with a non-empty queue. -/
theorem C8_skip_idle_noop_witness : cmd_skip stallState = stallState :=
  C8_skip_idle_noop stallState rfl

/-- C10: `cmd_stop` invoked with no voice client takes its `else` branch
and leaves the whole guild state — in particular the queue — unchanged. -/
theorem C10_stop_disconnected_keeps_queue (s : GState) (h : s.vc = none) :
    cmd_stop s = s := by
  unfold cmd_stop
  rw [h]

/-- Witness for C10 at a guild with no voice client and two queued songs. -/
theorem C10_stop_disconnected_keeps_queue_witness :
    cmd_stop
      { vc := none,
        queue := some { queue := [songA, songB], limit := 50 },
        events := [] } =
      { vc := none,
        queue := some { queue := [songA, songB], limit := 50 },
        events := [] } :=
  C10_stop_disconnected_keeps_queue
    { vc := none,
      queue := some { queue := [songA, songB], limit := 50 },
      events := [] } rfl

/-! ### Two concurrent advance invocations (claim C5) -/

lemma countPlays_append (a b : List Event) :
    countPlays (a ++ b) = countPlays a + countPlays b := by
  simp [countPlays, List.filter_append]

lemma countPlays_playError (a : List Event) (x : Song) :
    countPlays (a ++ [Event.playError x]) = countPlays a := by
  simp [countPlays_append, countPlays]

lemma countPlays_nowPlaying (a : List Event) (x : Song) :
    countPlays (a ++ [Event.nowPlaying x]) = countPlays a + 1 := by
  simp [countPlays_append, countPlays]

/-- Invariant of two interleaved `start_playback_if_needed` invocations on a
connected guild all of whose songs resolve: the client stays connected and
the queue object present; the number of now-playing notifications matches
the playing flag (so at most one playback ever starts); and while nothing is
playing yet, some task can still reach the `vc.play` call. -/
def RaceInv (p1 p2 : TaskPhase) (s : GState) : Prop :=
  (∃ b, s.vc = some { connected := true, playing := b }) ∧
  (∃ m, s.queue = some m) ∧
  countPlays s.events = (if isPlaying s then 1 else 0) ∧
  (isPlaying s = true ∨ (∃ x, p1 = TaskPhase.resolvedSong x) ∨
    (∃ x, p2 = TaskPhase.resolvedSong x) ∨
    ((∃ m, s.queue = some m ∧ m.queue ≠ []) ∧
      (p1 = TaskPhase.start ∨ p2 = TaskPhase.start)))

lemma RaceInv_symm (p1 p2 : TaskPhase) (s : GState) (h : RaceInv p1 p2 s) :
    RaceInv p2 p1 s := by
  obtain ⟨h1, h2, h3, h4⟩ := h
  refine ⟨h1, h2, h3, ?_⟩
  rcases h4 with h | h | h | ⟨hm, hp⟩
  · exact Or.inl h
  · exact Or.inr (Or.inr (Or.inl h))
  · exact Or.inr (Or.inl h)
  · exact Or.inr (Or.inr (Or.inr ⟨hm, hp.symm⟩))

lemma stepTask_inv (resolve : Song → Bool) (hr : ∀ x, resolve x = true)
    (p1 p2 : TaskPhase) (s : GState) (h : RaceInv p1 p2 s) :
    RaceInv (stepTask resolve p1 s).1 p2 (stepTask resolve p1 s).2 := by
  obtain ⟨⟨b, hvc⟩, ⟨m, hq⟩, hcount, hlive⟩ := h
  cases p1 with
  | done =>
    simp only [stepTask]
    refine ⟨⟨b, hvc⟩, ⟨m, hq⟩, hcount, ?_⟩
    rcases hlive with hl | ⟨x, hx⟩ | ⟨x, hx⟩ | ⟨hm, hp⟩
    · exact Or.inl hl
    · simp at hx
    · exact Or.inr (Or.inr (Or.inl ⟨x, hx⟩))
    · rcases hp with hp | hp
      · simp at hp
      · exact Or.inr (Or.inr (Or.inr ⟨hm, Or.inr hp⟩))
  | start =>
    by_cases hm0 : m.size = 0
    · have hA : segA s = (s, none) := segA_of_queue_empty s m hq hm0
      simp only [stepTask, hA]
      refine ⟨⟨b, hvc⟩, ⟨m, hq⟩, hcount, ?_⟩
      rcases hlive with hl | ⟨x, hx⟩ | ⟨x, hx⟩ | ⟨⟨m2, hm2, hm2ne⟩, hp⟩
      · exact Or.inl hl
      · simp at hx
      · exact Or.inr (Or.inr (Or.inl ⟨x, hx⟩))
      · exfalso
        rw [hq] at hm2
        cases hm2
        apply hm2ne
        unfold MusicQueue.size at hm0
        exact List.length_eq_zero.mp hm0
    · cases hb : b with
      | true =>
        have hA : segA s = (s, none) := by
          apply segA_of_playing s { connected := true, playing := b } hvc
          rw [hb]
        simp only [stepTask, hA]
        refine ⟨⟨b, hvc⟩, ⟨m, hq⟩, hcount, ?_⟩
        refine Or.inl ?_
        unfold isPlaying
        rw [hvc, hb]
      | false =>
        subst hb
        cases hmq : m.queue with
        | nil =>
          exfalso
          apply hm0
          unfold MusicQueue.size
          rw [hmq]
          rfl
        | cons song rest =>
          have hA : segA s =
              ({ s with queue := some { m with queue := rest } }, some song) := by
            unfold segA
            rw [hvc]
            simp [hq, hm0, MusicQueue.dequeue, hmq]
          simp only [stepTask, hA]
          refine ⟨⟨false, hvc⟩, ⟨{ m with queue := rest }, rfl⟩, ?_, ?_⟩
          · simpa [isPlaying] using hcount
          · exact Or.inr (Or.inl ⟨song, rfl⟩)
  | resolvedSong x =>
    simp only [stepTask]
    cases hb : b with
    | true =>
      have hB : segB resolve s x =
          { s with events := s.events ++ [Event.playError x] } := by
        unfold segB
        rw [hvc, hb]
        simp [hr x]
      rw [hB]
      refine ⟨⟨b, hvc⟩, ⟨m, hq⟩, ?_, ?_⟩
      · simpa [isPlaying, countPlays_playError] using hcount
      · refine Or.inl ?_
        unfold isPlaying
        rw [hvc, hb]
    | false =>
      subst hb
      have hB : segB resolve s x =
          { s with vc := some { connected := true, playing := true },
                   events := s.events ++ [Event.nowPlaying x] } := by
        unfold segB
        rw [hvc]
        simp [hr x]
      rw [hB]
      have hid : isPlaying s = false := by
        unfold isPlaying
        rw [hvc]
      refine ⟨⟨true, rfl⟩, ⟨m, hq⟩, ?_, Or.inl ?_⟩
      · rw [hid] at hcount
        simp at hcount
        simp [isPlaying, countPlays_nowPlaying, hcount]
      · unfold isPlaying
        simp

lemma runSched_inv (resolve : Song → Bool) (hr : ∀ x, resolve x = true) :
    ∀ (sched : List Bool) (p1 p2 : TaskPhase) (s : GState), RaceInv p1 p2 s →
      RaceInv (runSched resolve sched p1 p2 s).1
        (runSched resolve sched p1 p2 s).2.1
        (runSched resolve sched p1 p2 s).2.2 := by
  intro sched
  induction sched with
  | nil =>
    intro p1 p2 s h
    simpa [runSched] using h
  | cons bit rest ih =>
    intro p1 p2 s h
    cases bit with
    | true =>
      simp only [runSched]
      exact ih _ _ _ (stepTask_inv resolve hr p1 p2 s h)
    | false =>
      simp only [runSched]
      exact ih _ _ _
        (RaceInv_symm _ _ _ (stepTask_inv resolve hr p2 p1 s (RaceInv_symm _ _ _ h)))

/-- C5 (amended): under every cooperative interleaving of two concurrent
`start_playback_if_needed` invocations for the same connected, idle guild
with a non-empty, all-resolving queue, exactly one playback attempt starts
once both invocations have run to completion. (The claim's further demand
that the second call no-op is refuted separately: the losing call may
dequeue an entry and drop it with an error notification.) -/
theorem C5_single_playback_start (resolve : Song → Bool) (sched : List Bool)
    (s : GState) (m : MusicQueue)
    (hvc : s.vc = some { connected := true, playing := false })
    (hq : s.queue = some m) (hne : m.queue ≠ []) (hev : s.events = [])
    (hr : ∀ x, resolve x = true)
    (h1 : (runSched resolve sched TaskPhase.start TaskPhase.start s).1 =
      TaskPhase.done)
    (h2 : (runSched resolve sched TaskPhase.start TaskPhase.start s).2.1 =
      TaskPhase.done) :
    countPlays
      (runSched resolve sched TaskPhase.start TaskPhase.start s).2.2.events
      = 1 := by
  have h0 : RaceInv TaskPhase.start TaskPhase.start s := by
    refine ⟨⟨false, hvc⟩, ⟨m, hq⟩, ?_, ?_⟩
    · simp [hev, countPlays, isPlaying, hvc]
    · exact Or.inr (Or.inr (Or.inr ⟨⟨m, hq, hne⟩, Or.inl rfl⟩))
  obtain ⟨-, -, hcount, hlive⟩ := runSched_inv resolve hr sched _ _ _ h0
  rcases hlive with hplay | ⟨x, hx⟩ | ⟨x, hx⟩ | ⟨-, hp | hp⟩
  · rw [hplay] at hcount
    simpa using hcount
  · rw [h1] at hx
    simp at hx
  · rw [h2] at hx
    simp at hx
  · rw [h1] at hp
    simp at hp
  · rw [h2] at hp
    simp at hp

/-- Witness for C5 at the canonical racing schedule, both tasks completing. -/
theorem C5_single_playback_start_witness :
    countPlays (runSched resolveAll [true, false, true, false]
      TaskPhase.start TaskPhase.start stallState).2.2.events = 1 :=
  C5_single_playback_start resolveAll [true, false, true, false] stallState
    { queue := [songA, songB], limit := MAX_QUEUE_LENGTH }
    rfl rfl (by decide) rfl (fun x => rfl) rfl rfl

/-- C5 counterexample: in the interleaving where both invocations pass the
`is_playing` check before either reaches `vc.play` — task one runs its
synchronous prefix, then task two runs its prefix, then each resumes — both
entries are dequeued: song A starts playing but song B is dropped with an
error notification instead of being left queued. So the second call is not
a no-op, refuting the claim that a call observing the guild transitioning
to Playing leaves the queue untouched. -/
theorem C5_counterexample :
    (runSched resolveAll [true, false, true, false]
      TaskPhase.start TaskPhase.start stallState).1 = TaskPhase.done ∧
    (runSched resolveAll [true, false, true, false]
      TaskPhase.start TaskPhase.start stallState).2.1 = TaskPhase.done ∧
    (runSched resolveAll [true, false, true, false]
      TaskPhase.start TaskPhase.start stallState).2.2 =
      { vc := some { connected := true, playing := true },
        queue := some { queue := [], limit := MAX_QUEUE_LENGTH },
        events := [Event.nowPlaying songA, Event.playError songB] } ∧
    ¬ ((runSched resolveAll [true, false, true, false]
        TaskPhase.start TaskPhase.start stallState).2.2.queue =
          some { queue := [songB], limit := MAX_QUEUE_LENGTH } ∧
      (runSched resolveAll [true, false, true, false]
        TaskPhase.start TaskPhase.start stallState).2.2.events =
          [Event.nowPlaying songA]) := by
  refine ⟨rfl, rfl, rfl, ?_⟩
  intro hcl
  exact absurd hcl.1 (by decide)
